import Mathlib

/-!
Verification of the pystubber stub renderer.

This file gives a shallow embedding of `src/pystubber/stubber.py` (the member
classifier `_get_classes` / `_get_funcs` / `_get_data` and the renderer class
`StubDoc` with its methods `docmodule`, `docclass`, `docroutine`,
`_docdescriptor` and `docother`), together with the parts of the Python
standard library's `pydoc` / `inspect` reflection subsystem that the file
imports and whose exact behaviour the rendering depends on (`visiblename`,
`classname`, `_split_list`, `sort_attributes`).  The file pins itself to
"code in `pydoc.py` of Python 3.6.5" (stubber.py line 41), so those imported
helpers are modelled after CPython 3.6.5.

Live runtime objects are modelled by the inductive type `PyObj`: the
reflection primitives that are pure oracles from the renderer's point of view
(docstring extraction, `repr`, signature text, method-resolution order,
attribute classification) appear as fields of the modelled objects.
Exceptions raised by attribute access are modelled by `Option` results.
-/

namespace Pystubber

/-- Test that the first character list is a leading segment of the second
(the semantics of Python's `str.startswith` on list form). -/
def leadsWith : List Char → List Char → Bool
  | [], _ => true
  | _ :: _, [] => false
  | p :: ps, c :: cs => p == c && leadsWith ps cs

/-- Substring occurrence test on character lists. -/
def occursIn (needle : List Char) : List Char → Bool
  | [] => needle.isEmpty
  | c :: cs => leadsWith needle (c :: cs) || occursIn needle cs

/-- Substring test on strings (Python's `needle in hay`). -/
def strContains (hay needle : String) : Bool := occursIn needle.data hay.data

/-- Python `s.startswith(p)`. -/
def strLeads (p s : String) : Bool := leadsWith p.data s.data

/-- Python `s.endswith(p)`. -/
def strEnds (p s : String) : Bool := leadsWith p.data.reverse s.data.reverse

/-- Replacement scanner for `pyReplace`.  In mode `Nat.succ k` the scanner is
inside an already-replaced match and discards `k+1` further characters; in
mode `0` it looks for the leftmost occurrence of `pat`, emits `rep` for it and
skips the matched text, exactly like Python's `str.replace` / a literal
`re.sub` (non-overlapping, left to right, no rescan of the replacement).
`pat` is nonempty at every call site. -/
def pyReplaceA (pat rep : List Char) : Nat → List Char → List Char
  | _, [] => []
  | Nat.succ k, _ :: cs => pyReplaceA pat rep k cs
  | 0, c :: cs =>
    if leadsWith pat (c :: cs) then rep ++ pyReplaceA pat rep (pat.length - 1) cs
    else c :: pyReplaceA pat rep 0 cs

/-- Python `s.replace(pat, rep)` (and `re.sub` with a literal pattern, as used
on the signature text and on the declaration line in `docroutine`). -/
def pyReplace (s pat rep : String) : String :=
  String.mk (pyReplaceA pat.data rep.data 0 s.data)

/-- The characters stripped by Python's `str.rstrip()` with no argument. -/
def pySpaceChar (c : Char) : Bool :=
  c == ' ' || c == '\t' || c == '\n' || c == '\r' || c == '\x0b' || c == '\x0c'

/-- Python `s.rstrip()`. -/
def pyRstrip (s : String) : String :=
  String.mk ((s.data.reverse.dropWhile pySpaceChar).reverse)

/-- Python `s.split('\n')` on the character-list form: always returns at least
one (possibly empty) segment. -/
def splitNL : List Char → List (List Char)
  | [] => [[]]
  | c :: cs =>
    match splitNL cs with
    | [] => [[]]
    | l :: ls => if c == '\n' then [] :: l :: ls else (c :: l) :: ls

/-- Apply `pyRstrip` to the last element of a list of lines
(`lines[-1] = lines[-1].rstrip()` in `TextDoc.indent`). -/
def rstripLast : List String → List String
  | [] => []
  | [l] => [pyRstrip l]
  | l :: ls => l :: rstripLast ls

/-- `TextDoc.indent` of pydoc 3.6.5: prepend `pfx` to every line, strip the
trailing whitespace of the last line, return `''` unchanged. -/
def pyIndent (text : String) (pfx : String) : String :=
  if text = "" then ""
  else String.intercalate "\n" (rstripLast ((splitNL text.data).map (fun l => pfx ++ String.mk l)))

/-- Python slice `s[1:-1]` (used to strip the parentheses of a lambda's
signature text). -/
def strSlice1m1 (s : String) : String := String.mk ((s.data.drop 1).dropLast)

/-- Python `str(doc)` for an argument that is either `None` or a string
(the only shapes `docother`'s `doc` argument takes). -/
def strOfDoc : Option String → String
  | none => "None"
  | some s => s

/-- Python `name or realname` for an optional display name: falsy (absent or
empty) names fall back to the object's own name. -/
def pyNameOr (nameOpt : Option String) (realname : String) : String :=
  match nameOpt with
  | some n => if n = "" then realname else n
  | none => realname

/-- Association-list lookup by name, first match wins (models `getattr` /
dictionary lookup on a name-keyed attribute store). -/
def alookup : List (String × α) → String → Option α
  | [], _ => none
  | (k, v) :: rest, s => if k = s then some v else alookup rest s

/-- Python `enumerate(l, i)`. -/
def enumFrom (i : Nat) : List α → List (Nat × α)
  | [] => []
  | a :: as => (i, a) :: enumFrom (i + 1) as

/-- `pydoc._split_list(s, p)` of 3.6.5: the elements satisfying `p`, and the
rest, both in order. -/
def splitList (l : List α) (p : α → Bool) : List α × List α :=
  (l.filter p, l.filter (fun x => !(p x)))

/-- Codepoint comparison of characters (Python string ordering is codepoint
lexicographic). -/
def chLt (a b : Char) : Bool := a.toNat < b.toNat

/-- Lexicographic strict order on character lists (Python `str <`). -/
def strLtL : List Char → List Char → Bool
  | [], [] => false
  | [], _ :: _ => true
  | _ :: _, [] => false
  | a :: as, b :: bs => chLt a b || (a == b && strLtL as bs)

/-- Insert into a sorted list: walk past strictly smaller elements and place
the new element before the first element that is not strictly smaller, so an
element arriving from earlier in the input stays before equal elements. -/
def insSorted (lt : α → α → Bool) (x : α) : List α → List α
  | [] => [x]
  | y :: ys => if lt y x then y :: insSorted lt x ys else x :: y :: ys

/-- Stable insertion sort by a strict comparator; extensionally the stable
key sort performed by Python's `list.sort(key=...)`. -/
def stableSortBy (lt : α → α → Bool) : List α → List α
  | [] => []
  | x :: xs => insSorted lt x (stableSortBy lt xs)

/-! ## The modelled runtime object graph -/

/-- A reference to a class used for identity tests and name rendering:
`id` models object identity (`is`), `name` is `__name__`, `modName` is
`__module__`. -/
structure ClassRef where
  id : Nat
  name : String
  modName : String

/-- Result of `inspect.getmodule(value)` compared against the module being
documented: `unknown` models a `None` result, `target` means the value's
module is the documented module itself, `foreign` any other module. -/
inductive ModRes
  | unknown
  | target
  | foreign

/-- The attribute kinds produced by `pydoc.classify_class_attrs` (which
rewrites the kind of every data descriptor, including properties, to
`'data descriptor'`). -/
inductive AttrKind
  | method
  | classMethod
  | staticMethod
  | dataDescr
  | dataAttr
deriving BEq, DecidableEq

/-- Binding information of a routine for which `pydoc._is_bound_method` is
true: `selfIsNone` is `object.__self__ is None`, `imclass` is
`object.__self__.__class__`. -/
structure BoundInfo where
  selfIsNone : Bool
  imclass : ClassRef

/-- A routine object (function, method, builtin).  `signatureStr` is
`str(inspect.signature(object))`, or `none` when `inspect.signature` raises
`ValueError`/`TypeError`; `doc` is `pydoc.getdoc(object)` (always a string,
`''` when undocumented); `id` models object identity; `isBuiltin` is
`inspect.isbuiltin(value)`; `gm` is `inspect.getmodule(value)` relative to
the documented module. -/
structure RoutineData where
  id : Nat
  realname : String
  doc : String
  reprStr : String
  signatureStr : Option String
  bound : Option BoundInfo
  isBuiltin : Bool
  gm : ModRes

/-- A plain value (everything for which `pydoc.isdata` holds: not a module,
class, routine, frame, traceback or code object) or, when used under the
`PyObj.other` constructor, a frame/traceback/code-like object for which
`pydoc.isdata` is false.  `reprStr` is the text produced by the external
`StubRepr.repr` bounded-representation oracle. -/
structure DataData where
  reprStr : String
  doc : String
  isCallable : Bool
  isDataDesc : Bool

/-- One record of `pydoc.classify_class_attrs(object)` (3.6.5):
`(name, kind, homecls, value)` plus the outcome `gat` of the
`getattr(object, name)` the renderer performs on it (`none` models a raised
exception).  `spilldata` distinguishes `AttributeError` (class-dict fallback)
from other exceptions (which would abort rendering); since no claim concerns
aborted renderings, every failure is modelled as the caught one, and the
class-dict fallback value coincides with the classified `value`. -/
structure ClassAttrP (α : Type) where
  name : String
  kind : AttrKind
  homecls : ClassRef
  value : α
  gat : Option α

/-- A class object: `id`/`name`/`modName` as in `ClassRef`, `doc` is
`pydoc.getdoc`, `bases` is `__bases__`, `mro` is `inspect.getmro(object)`
(whose first entry is the class itself and whose last is `builtins.object`
for real classes — not assumed), `attrs` is `pydoc.classify_class_attrs`,
`fieldsAttr` is `getattr(object, '_fields', None)`, `dict` maps the names of
`__dict__` to the identity of the stored object, `gm` as for routines. -/
structure ClassDataP (α : Type) where
  id : Nat
  name : String
  modName : String
  doc : String
  reprStr : String
  bases : List ClassRef
  mro : List ClassRef
  attrs : List (ClassAttrP α)
  fieldsAttr : Option (List String)
  dict : List (String × Nat)
  gm : ModRes

/-- A live Python object as seen by the renderer.  Module objects appearing
as members of other objects are out of the modelled scope: all three
classifier functions exclude them (`pydoc.isdata` is false for modules), so
`other` stands for the remaining non-class non-routine objects with
`isdata = False` (frames, tracebacks, code objects). -/
inductive PyObj
  | cls (c : ClassDataP PyObj)
  | routine (r : RoutineData)
  | dataVal (d : DataData)
  | other (d : DataData)

/-- Class data over live objects. -/
abbrev ClassData := ClassDataP PyObj

/-- Classified class attribute over live objects. -/
abbrev ClassAttr := ClassAttrP PyObj

/-- A module object: `doc` is `pydoc.getdoc(object)`, `all` is
`getattr(object, '__all__', None)`, `members` is the name-keyed attribute
store that `inspect.getmembers` enumerates (and over which `hasattr` /
`getattr` are resolved). -/
structure PyModule where
  doc : String
  all : Option (List String)
  members : List (String × PyObj)

/-- Python `hasattr(module, s)` resolved over the member store. -/
def hasattrB (m : PyModule) (s : String) : Bool := (alookup m.members s).isSome

/-- `inspect.isclass` on modelled objects. -/
def isclassB : PyObj → Bool
  | .cls _ => true
  | _ => false

/-- `inspect.isroutine` on modelled objects. -/
def isroutineB : PyObj → Bool
  | .routine _ => true
  | _ => false

/-- `pydoc.isdata` on modelled objects. -/
def isdataB : PyObj → Bool
  | .dataVal _ => true
  | _ => false

/-- `pydoc.getdoc(object)` on modelled objects (always a string). -/
def getdocF : PyObj → String
  | .cls c => c.doc
  | .routine r => r.doc
  | .dataVal d => d.doc
  | .other d => d.doc

/-- The text of `StubDoc.repr(object)` — the external bounded-representation
oracle, recorded per object. -/
def pyReprOf : PyObj → String
  | .cls c => c.reprStr
  | .routine r => r.reprStr
  | .dataVal d => d.reprStr
  | .other d => d.reprStr

/-- Python `callable(value)` on modelled objects. -/
def pyCallableB : PyObj → Bool
  | .cls _ => true
  | .routine _ => true
  | .dataVal d => d.isCallable
  | .other d => d.isCallable

/-- `inspect.isdatadescriptor(value)` on modelled objects. -/
def isDataDescB : PyObj → Bool
  | .dataVal d => d.isDataDesc
  | .other d => d.isDataDesc
  | _ => false

/-- The modelled identity of `builtins.object`, the universal root type
(`thisclass is builtins.object` in `docclass`). -/
def builtinsObjectId : Nat := 0

/-! ## Modelled pydoc helpers (CPython 3.6.5) -/

/-- The set of names `pydoc.visiblename` (3.6.5) unconditionally hides. -/
def hiddenSpecialNames : List String :=
  ["__author__", "__builtins__", "__cached__", "__credits__",
   "__date__", "__doc__", "__file__", "__spec__",
   "__loader__", "__module__", "__name__", "__package__",
   "__path__", "__qualname__", "__slots__", "__version__"]

/-- `pydoc.visiblename(name, all, obj)` of CPython 3.6.5, with
`hasattr(obj, '_fields')` supplied as `objHasFields`. -/
def visiblenameB (name : String) (all : Option (List String)) (objHasFields : Bool) : Bool :=
  if hiddenSpecialNames.contains name then false
  else if strLeads "__" name && strEnds "__" name then true
  else if strLeads "_" name && objHasFields then true
  else match all with
    | some a => a.contains name
    | none => !(strLeads "_" name)

/-- `pydoc.classname(object, modname)`: qualify `__name__` with `__module__`
whenever `__module__` differs from `modname` (in particular always when
`modname` is `None`). -/
def pyClassname (c : ClassRef) (modname : Option String) : String :=
  if modname = some c.modName then c.name else c.modName ++ "." ++ c.name

/-- `field_order.get(name, 0)` of `pydoc.sort_attributes`: the last index of
`name` in the `_fields` list minus the list length, or `0`. -/
def fieldOrder (fields : List String) (nm : String) : Int :=
  match ((enumFrom 0 fields).filter (fun p => p.2 = nm)).getLast? with
  | some p => (p.1 : Int) - fields.length
  | none => 0

/-- The strict comparator of `pydoc.sort_attributes`: keys
`(field_order.get(name, 0), name)` compared lexicographically (Python tuple
order, strings by codepoint). -/
def attrKeyLt (k1 k2 : Int × List Char) : Bool :=
  decide (k1.1 < k2.1) || (decide (k1.1 = k2.1) && strLtL k1.2 k2.2)

/-- `pydoc.sort_attributes(attrs, object)` (3.6.5): stable sort of the
attribute records by `(field_order.get(name, 0), name)`. -/
def sortAttributes (attrs : List ClassAttr) (c : ClassData) : List ClassAttr :=
  let fields := c.fieldsAttr.getD []
  stableSortBy (fun a b =>
    attrKeyLt (fieldOrder fields a.name, a.name.data) (fieldOrder fields b.name, b.name.data)) attrs

/-! ## The classifier: `_get_classes`, `_get_funcs`, `_get_data` -/

/-- The provenance test of `_get_classes`:
`(inspect.getmodule(value) or object) is object`. -/
def classGmOk : PyObj → Bool
  | .cls c =>
    match c.gm with
    | .foreign => false
    | _ => true
  | _ => true

/-- The provenance test of `_get_funcs`:
`inspect.isbuiltin(value) or inspect.getmodule(value) is object`. -/
def funcGmOk : PyObj → Bool
  | .routine r =>
    r.isBuiltin ||
      (match r.gm with
       | .target => true
       | _ => false)
  | _ => true

/-- `_get_classes(object, all_)` of stubber.py: members satisfying
`inspect.isclass`, kept when `all_` is given or the provenance test passes,
and `visiblename` accepts the name. -/
def get_classes (m : PyModule) : List (String × PyObj) :=
  m.members.filter (fun kv =>
    isclassB kv.2 && (m.all.isSome || classGmOk kv.2) &&
      visiblenameB kv.1 m.all (hasattrB m "_fields"))

/-- `_get_funcs(object, all_)` of stubber.py. -/
def get_funcs (m : PyModule) : List (String × PyObj) :=
  m.members.filter (fun kv =>
    isroutineB kv.2 && (m.all.isSome || funcGmOk kv.2) &&
      visiblenameB kv.1 m.all (hasattrB m "_fields"))

/-- `_get_data(object, all_)` of stubber.py: members satisfying
`pydoc.isdata` and `visiblename` (no provenance test). -/
def get_data (m : PyModule) : List (String × PyObj) :=
  m.members.filter (fun kv =>
    isdataB kv.2 && visiblenameB kv.1 m.all (hasattrB m "_fields"))

/-! ## The renderer: `StubDoc` -/

/-- `StubDoc.section(title, contents)`: heading, right-stripped contents,
exactly one blank line after. -/
def sectionFmt (title contents : String) : String :=
  title ++ "\n" ++ pyRstrip contents ++ "\n\n"

/-- `StubDoc.docother(object, name, mod, parent, maxlen, doc)`.  The source
contains a conditional assignment `if maxlen: line = (name and name + ' = '
or '') + repr` whose result is unconditionally overwritten by the next
statement; it is kept here as a dead binding.  Note `_PlainTextDoc.bold` is
the identity.  The trailing-comment test is Python's `if str(doc):`, which is
true for `doc=None` (since `str(None) = 'None'`). -/
def docother (obj : PyObj) (nameOpt : Option String) (mod : Option String)
    (parent : Option ClassData) (maxlen : Option Nat) (doc : Option String) : String :=
  let r := pyReprOf obj
  let namePart := match nameOpt with
    | some n => if n = "" then "" else n ++ " = "
    | none => ""
  let _deadLine := namePart ++ r
  let line := namePart ++ r
  if strOfDoc doc ≠ "" then line ++ "\n" ++ pyIndent (strOfDoc doc) "# " else line

/-- `StubDoc._docdescriptor(name, value, mod)`: a `name = None` stub line
followed by the value's documentation as an indented comment. -/
def docdescriptor (nameOpt : Option String) (v : PyObj) (mod : Option String) : String :=
  let part1 := match nameOpt with
    | some n => if n = "" then "" else n ++ " = None" ++ "\n"
    | none => ""
  let doc := getdocF v
  let part2 := if doc ≠ "" then pyIndent doc "  # " ++ "\n" else ""
  part1 ++ part2

/-- The bound-method annotation of `StubDoc.docroutine`. -/
def routineNote (r : RoutineData) (mod : Option String) (cl : Option ClassData) : String :=
  match r.bound with
  | none => ""
  | some b =>
    match cl with
    | some c => if b.imclass.id ≠ c.id then " from " ++ pyClassname b.imclass mod else ""
    | none =>
      if !b.selfIsNone then " method of " ++ pyClassname b.imclass mod ++ " instance"
      else " unbound " ++ pyClassname b.imclass mod ++ " method"

/-- The title / `skipdocs` resolution of `StubDoc.docroutine`: an alias
display name yields `name = realname`, and `skipdocs` is set when the
enclosing class dictionary stores this very object under its real name. -/
def routineSkipTitle (r : RoutineData) (name : String) (cl : Option ClassData) : String × Bool :=
  if name = r.realname then (r.realname, false)
  else
    let skip := match cl with
      | some c => alookup c.dict r.realname = some r.id
      | none => false
    (name ++ " = " ++ r.realname, skip)

/-- The declaration line and `skipdocs` flag of `StubDoc.docroutine`:
signature text with positional-only markers stripped
(`re.sub(', /\)', ')')` then `re.sub(', /', '')`), the lambda special case
(title `name + ' lambda '`, parentheses sliced off), the
`(*args, **kwargs)` fallback with its `# unknown args #` marker, the
bound-method note, and the final `decl.replace('#  #', '#')`. -/
def routineDeclSkip (r : RoutineData) (nameOpt : Option String) (mod : Option String)
    (cl : Option ClassData) : String × Bool :=
  let realname := r.realname
  let name := pyNameOr nameOpt realname
  let note := routineNote r mod cl
  let (title0, skipdocs) := routineSkipTitle r name cl
  -- `inspect.isroutine(object)` always holds for a routine object.
  let argspec0 : Option String := match r.signatureStr with
    | none => none
    | some s => some (pyReplace (pyReplace s ", /)" ")") ", /" "")
  let (title, argspec1) := match argspec0 with
    | some a => if realname = "<lambda>" then (name ++ " lambda ", some (strSlice1m1 a)) else (title0, some a)
    | none => (title0, none)
  let (argspec, dummyargs) := match argspec1 with
    | some a => if a ≠ "" then (a, false) else ("(*args, **kwargs)", true)
    | none => ("(*args, **kwargs)", true)
  let decl0 := "def " ++ title ++ argspec ++ ":"
  let decl1 := if dummyargs then decl0 ++ "  # unknown args #" else decl0
  let decl2 := if note ≠ "" then decl1 ++ "  # " ++ note else decl1
  (pyReplace decl2 "#  #" "#", skipdocs)

/-- `StubDoc.docroutine(object, name, mod, cl)`: declaration line, then
either just the stub body (when `skipdocs`) or the fenced docstring followed
by the stub body, indented and right-stripped. -/
def docroutine (r : RoutineData) (nameOpt : Option String) (mod : Option String)
    (cl : Option ClassData) : String :=
  let (decl, skipdocs) := routineDeclSkip r nameOpt mod cl
  let impl := "raise NotImplementedError()"
  if skipdocs then decl ++ "\n" ++ pyIndent impl "    " ++ "\n"
  else
    let doc := if r.doc ≠ "" then "\"\"\"\n" ++ r.doc ++ "\n\"\"\"" else r.doc
    decl ++ "\n" ++ pyRstrip (pyIndent ((if doc ≠ "" then doc ++ "\n" else "") ++ impl) "    ") ++ "\n"

/-- The horizontal rule pushed by `HorizontalRule.maybe`. -/
def hrLine : String := "# " ++ String.mk (List.replicate 68 '-')

/-- One entry of `spill`: the `try getattr / except` per attribute — a raised
exception is caught locally and the attribute is rendered by
`_docdescriptor` from its classified value; otherwise the fetched value is
rendered by `self.document(value, name, mod, object)`. -/
def renderSpillEntry (docFn : PyObj → Option String → Option String → Option ClassData → String)
    (c : ClassData) (mod : Option String) (a : ClassAttr) : String :=
  match a.gat with
  | some v => docFn v (some a.name) mod (some c)
  | none => docdescriptor (some a.name) a.value mod

/-- `spill(msg, attrs, predicate)` of `StubDoc.docclass`: split off the
matching attributes, emit a horizontal rule when needed, a `# msg` header and
one rendered entry per matching attribute; return the pushed lines, the
remaining attributes and the updated rule state. -/
def spillG (docFn : PyObj → Option String → Option String → Option ClassData → String)
    (c : ClassData) (mod : Option String) (msg : String) (attrs : List ClassAttr)
    (p : ClassAttr → Bool) (needone : Bool) : List String × List ClassAttr × Bool :=
  let (ok, rest) := splitList attrs p
  if ok.isEmpty then ([], rest, needone)
  else
    ((if needone then [hrLine] else []) ++ ("# " ++ msg) ::
        ok.map (renderSpillEntry docFn c mod),
      rest, true)

/-- `spilldescriptors(msg, attrs, predicate)` of `StubDoc.docclass`. -/
def spillDescriptorsG (c : ClassData) (mod : Option String) (msg : String)
    (attrs : List ClassAttr) (p : ClassAttr → Bool) (needone : Bool) :
    List String × List ClassAttr × Bool :=
  let (ok, rest) := splitList attrs p
  if ok.isEmpty then ([], rest, needone)
  else
    ((if needone then [hrLine] else []) ++ ("# " ++ msg) ::
        ok.map (fun a => docdescriptor (some a.name) a.value mod),
      rest, true)

/-- One entry of `spilldata`: documentation only for callables and data
descriptors, value from `getattr` with the class-dict fallback on failure,
rendered by `docother` with a trailing newline. -/
def renderDataEntry (c : ClassData) (mod : Option String) (a : ClassAttr) : String :=
  let doc := if pyCallableB a.value || isDataDescB a.value then some (getdocF a.value) else none
  let obj := match a.gat with
    | some v => v
    | none => a.value
  docother obj (some a.name) mod none (some 70) doc ++ "\n"

/-- `spilldata(msg, attrs, predicate)` of `StubDoc.docclass`. -/
def spillDataG (c : ClassData) (mod : Option String) (msg : String)
    (attrs : List ClassAttr) (p : ClassAttr → Bool) (needone : Bool) :
    List String × List ClassAttr × Bool :=
  let (ok, rest) := splitList attrs p
  if ok.isEmpty then ([], rest, needone)
  else
    ((if needone then [hrLine] else []) ++ ("# " ++ msg) ::
        ok.map (renderDataEntry c mod),
      rest, true)

/-- The numbered method-resolution-order comment block of `StubDoc.docclass`
(pushed when `len(mro) > 2`): a heading, `# i) name` for `i` counting from 1
over the full order, and a closing empty line. -/
def mroListing (c : ClassData) : List String :=
  "\n## Method resolution order:" ::
    (enumFrom 1 c.mro).map (fun p => "# " ++ toString p.1 ++ ") " ++ pyClassname p.2 (some c.modName))
    ++ [""]

/-- The `while attrs:` loop of `StubDoc.docclass`: walk the
method-resolution-order deque, split off each linearization entry's own
attributes, skip `builtins.object`, sort and pump the five kind groups
through the spill helpers.  The loop consumes at least one unit of
`mro.length + attrs.length` per iteration, which the structural counter
mirrors (callers pass `mro.length + attrs.length + 1`). -/
def docclassLoopG (docFn : PyObj → Option String → Option String → Option ClassData → String)
    (c : ClassData) (mod : Option String) :
    Nat → List ClassRef → List ClassAttr → Bool → List String
  | _, _, [], _ => []
  | 0, _, _, _ => []
  | Nat.succ g, mro, a0 :: arest, needone =>
    let attrs := a0 :: arest
    let (thisclass, mro2) := match mro with
      | t :: ms => (t, ms)
      | [] => (a0.homecls, ([] : List ClassRef))
    let (own, inherited) := splitList attrs (fun t => t.homecls.id == thisclass.id)
    if thisclass.id == builtinsObjectId then
      docclassLoopG docFn c mod g mro2 inherited needone
    else
      let tag := if thisclass.id == c.id then "defined here"
                 else "inherited from " ++ pyClassname thisclass (some c.modName)
      let own1 := sortAttributes own c
      let (l1, r1, n1) := spillG docFn c mod ("Methods " ++ tag ++ ":\n") own1
        (fun t => t.kind == AttrKind.method) needone
      let (l2, r2, n2) := spillG docFn c mod ("Class methods " ++ tag ++ ":\n") r1
        (fun t => t.kind == AttrKind.classMethod) n1
      let (l3, r3, n3) := spillG docFn c mod ("Static methods " ++ tag ++ ":\n") r2
        (fun t => t.kind == AttrKind.staticMethod) n2
      let (l4, r4, n4) := spillDescriptorsG c mod ("Data descriptors " ++ tag ++ ":\n") r3
        (fun t => t.kind == AttrKind.dataDescr) n3
      let (l5, _r5, n5) := spillDataG c mod ("Data and other attributes " ++ tag ++ ":\n") r4
        (fun t => t.kind == AttrKind.dataAttr) n4
      l1 ++ l2 ++ l3 ++ l4 ++ l5 ++ docclassLoopG docFn c mod g mro2 inherited n5

/-- The `contents` list built by `StubDoc.docclass` before joining: fenced
docstring, the method-resolution-order listing when the order has more than
two entries, then the output of the attribute loop over the
`visiblename`-filtered classified attributes. -/
def docclassContents (docFn : PyObj → Option String → Option String → Option ClassData → String)
    (c : ClassData) (mod : Option String) : List String :=
  let docPart := if c.doc ≠ "" then ["\"\"\"\n" ++ c.doc ++ "\n\"\"\""] else []
  let mroPart := if 2 < c.mro.length then mroListing c else []
  let attrs := c.attrs.filter (fun a => visiblenameB a.name none c.fieldsAttr.isSome)
  docPart ++ mroPart ++
    docclassLoopG docFn c mod (c.mro.length + attrs.length + 1) c.mro attrs false

/-- `StubDoc.docclass(object, name, mod)`: title line with base classes,
joined contents (or `pass`), indented one level. -/
def docclassG (docFn : PyObj → Option String → Option String → Option ClassData → String)
    (c : ClassData) (nameOpt : Option String) (mod : Option String) : String :=
  let realname := c.name
  let name := pyNameOr nameOpt realname
  let title0 := if name = realname then "class " ++ realname else name ++ " = class " ++ realname
  let title1 := if !c.bases.isEmpty then
      title0 ++ "(" ++ String.intercalate ", " (c.bases.map (fun b => pyClassname b (some c.modName))) ++ ")"
    else title0
  let title := title1 ++ ":"
  let joined := String.intercalate "\n" (docclassContents docFn c mod)
  let joined1 := if joined = "" then "pass" else joined
  "\n" ++ title ++ "\n" ++ pyIndent (pyRstrip joined1) "    " ++ "\n"

/-- `Doc.document` dispatch for the objects the modelled renderers pass to
it: classes to `docclass`, routines to `docroutine`, everything else to
`docother` (with the enclosing class as `parent`).  The fuel bounds the
recursion depth through nested class renderings; every path exercised by the
claims has depth at most two. -/
def document : Nat → PyObj → Option String → Option String → Option ClassData → String
  | 0, _, _, _, _ => ""
  | Nat.succ f, .cls c, nameOpt, mod, _ =>
    docclassG (fun o a b k => document f o a b k) c nameOpt mod
  | Nat.succ _, .routine r, nameOpt, mod, cl => docroutine r nameOpt mod cl
  | Nat.succ _, .dataVal d, nameOpt, mod, cl => docother (.dataVal d) nameOpt mod cl none none
  | Nat.succ _, .other d, nameOpt, mod, cl => docother (.other d) nameOpt mod cl none none

/-- The special module metadata names surfaced first in the DATA section. -/
def SPECIAL_DATA : List String := ["__version__", "__date__", "__author__", "__credits__"]

/-- One step of the `SPECIAL_DATA` loop of `docmodule`:
`if hasattr(object, special): data.insert(0, (special, getattr(object, special)))`. -/
def insertSpecial (m : PyModule) (s : String) (data : List (String × PyObj)) :
    List (String × PyObj) :=
  match alookup m.members s with
  | some v => (s, v) :: data
  | none => data

/-- The `SPECIAL_DATA` loop of `docmodule`, unrolled in source order (each
present special is inserted at position 0, so they end up reversed in front). -/
def insertSpecials (m : PyModule) (data0 : List (String × PyObj)) : List (String × PyObj) :=
  insertSpecial m "__credits__"
    (insertSpecial m "__author__"
      (insertSpecial m "__date__"
        (insertSpecial m "__version__" data0)))

/-- The final `data` list rendered by `docmodule`'s DATA section. -/
def moduleDataList (m : PyModule) : List (String × PyObj) :=
  insertSpecials m (get_data m)

/-- `StubDoc.docmodule(object, name, mod)` with the recursive
`self.document` call supplied as `docFn`: fenced docstring, then the DATA,
CLASSES and FUNCTIONS sections, each omitted when its list is empty. -/
def docmoduleG (docFn : PyObj → Option String → Option String → Option ClassData → String)
    (m : PyModule) (nameOpt : Option String) (mod : Option String) : String :=
  let r0 := if m.doc ≠ "" then "\"\"\"\n" ++ m.doc ++ "\n\"\"\"\n\n" else ""
  let classes := get_classes m
  let funcs := get_funcs m
  let data := moduleDataList m
  let r1 := if !data.isEmpty then
      r0 ++ sectionFmt "\n## DATA ##\n"
        (String.intercalate "\n" (data.map (fun kv => docother kv.2 (some kv.1) nameOpt none (some 70) none)))
    else r0
  let r2 := if !classes.isEmpty then
      r1 ++ sectionFmt "\n## CLASSES ##\n"
        (String.intercalate "\n" (classes.map (fun kv => docFn kv.2 (some kv.1) nameOpt none)))
    else r1
  let r3 := if !funcs.isEmpty then
      r2 ++ sectionFmt "\n## FUNCTIONS ##\n"
        (String.intercalate "\n" (funcs.map (fun kv => docFn kv.2 (some kv.1) nameOpt none)))
    else r2
  r3

/-- `StubDoc.docmodule` with the real recursive `document` dispatch. -/
def docmodule (fuel : Nat) (m : PyModule) (nameOpt : Option String) (mod : Option String) : String :=
  docmoduleG (fun o a b k => document fuel o a b k) m nameOpt mod

/-- The top-level names `docmodule` renders, section by section: the keys of
the DATA entries (special metadata first), then the keys under which each
class and each routine is documented. -/
def renderedNames (m : PyModule) : List String :=
  (moduleDataList m).map (fun kv => kv.1) ++
    (get_classes m).map (fun kv => kv.1) ++
    (get_funcs m).map (fun kv => kv.1)

/-! ## Specification-side definitions

The following two definitions are written from the words of the
specification, not from the source; they exist to be compared with the
embedded code. -/

/-- The visibility predicate exactly as the specification words it:
"visible when no export list is given and the name does not start with an
underscore, OR when an export list is given and the name appears in it". -/
def claimedVisible (all : Option (List String)) (nm : String) : Bool :=
  match all with
  | none => !(strLeads "_" nm)
  | some a => a.contains nm

/-- The visibility predicate actually applied by the code
(`pydoc.visiblename` of CPython 3.6.5), spelled out as a proposition: the
always-hidden special names are excluded; other dunder names are always
included; leading-underscore names are included when the inspected object has
a `_fields` attribute; otherwise an export list decides by membership and the
absence of one by the no-leading-underscore convention. -/
def visiblenameSpec (nm : String) (all : Option (List String)) (hf : Bool) : Prop :=
  nm ∉ hiddenSpecialNames ∧
    ((strLeads "__" nm = true ∧ strEnds "__" nm = true) ∨
     (strLeads "_" nm = true ∧ hf = true) ∨
     (match all with
      | some a => nm ∈ a
      | none => strLeads "_" nm = false))

/-! ## Proof scaffolding for the replacement scanner -/

/-- `failsWithin pat t` holds when matching `pat` at the head of `t` fails at
a position inside `t` itself, so that the failure persists for any extension
of `t`. -/
def failsWithin : List Char → List Char → Bool
  | [], _ => false
  | _ :: _, [] => false
  | p :: ps, c :: cs => p != c || failsWithin ps cs

/-- `allFail pat t` holds when a match of `pat` fails within `t` at every
start position of `t`. -/
def allFail (pat : List Char) : List Char → Bool
  | [] => true
  | c :: cs => failsWithin pat (c :: cs) && allFail pat cs

/-! ## Concrete objects used by witnesses and counterexamples -/

/-- A plain undocumented data value rendered as `1`. -/
def dPlain : DataData :=
  { reprStr := "1", doc := "", isCallable := false, isDataDesc := false }

/-- A data value whose repr is `1.0` (stands for a `__version__` string). -/
def dVersion : DataData :=
  { reprStr := "1.0", doc := "", isCallable := false, isDataDesc := false }

/-- A callable attribute value carrying documentation (stands for a
descriptor whose `__get__` fails). -/
def dBad : DataData :=
  { reprStr := "?", doc := "descr doc", isCallable := true, isDataDesc := false }

/-- A documented module-level function with an obtainable signature. -/
def rPlainF : RoutineData :=
  { id := 1, realname := "f", doc := "does things", reprStr := "",
    signatureStr := some "(a, b)", bound := none, isBuiltin := false, gm := .target }

/-- A routine whose signature query fails. -/
def rNoSig : RoutineData :=
  { id := 2, realname := "g", doc := "", reprStr := "",
    signatureStr := none, bound := none, isBuiltin := false, gm := .target }

/-- A lambda routine with signature text `(x)`. -/
def rLambda : RoutineData :=
  { id := 3, realname := "<lambda>", doc := "", reprStr := "",
    signatureStr := some "(x)", bound := none, isBuiltin := false, gm := .target }

/-- Reference to a base class `B` of module `m`. -/
def crefB : ClassRef := { id := 6, name := "B", modName := "m" }

/-- Reference to `builtins.object`. -/
def crefObj : ClassRef := { id := builtinsObjectId, name := "object", modName := "builtins" }

/-- Reference to a class `A` of module `m`. -/
def crefA : ClassRef := { id := 5, name := "A", modName := "m" }

/-- A class of module `m` with one base, a three-entry method-resolution
order, no attributes, and `f` stored in its dictionary under identity 1. -/
def cA : ClassData :=
  { id := 5, name := "A", modName := "m", doc := "", reprStr := "",
    bases := [crefB], mro := [crefA, crefB, crefObj],
    attrs := [], fieldsAttr := none, dict := [("f", 1)], gm := .target }

/-- A classified method attribute whose `getattr` raises. -/
def aBad : ClassAttr :=
  { name := "bad", kind := .method, homecls := crefA, value := .dataVal dBad, gat := none }

/-- A module with an export list `["f"]`, an exported function `f` and a
`__version__` attribute that is not in the export list. -/
def mC1 : PyModule :=
  { doc := "", all := some ["f"],
    members := [("__version__", .dataVal dVersion), ("f", .routine rPlainF)] }

/-- A module without an export list whose only member is the dunder-named
data value `__foo__`. -/
def mC5 : PyModule :=
  { doc := "", all := none, members := [("__foo__", .dataVal dPlain)] }

/-- A rendering callback that documents every object as the empty string
(used to instantiate quantified renderer parameters in witnesses). -/
def docFnNull : PyObj → Option String → Option String → Option ClassData → String :=
  fun _ _ _ _ => ""

end Pystubber

/-! ## Lemmas -/

namespace Pystubber

theorem leadsWith_append {t u : List Char} (v : List Char) (h : leadsWith t u = true) :
    leadsWith t (u ++ v) = true := by
  induction t generalizing u with
  | nil => simp [leadsWith]
  | cons p ps ih =>
    cases u with
    | nil => simp [leadsWith] at h
    | cons c cs =>
      simp [leadsWith] at h ⊢
      exact ⟨h.1, ih h.2⟩

theorem occursIn_nil_all (s : List Char) : occursIn [] s = true := by
  cases s <;> simp [occursIn, leadsWith, List.isEmpty]

theorem leadsWith_occursIn {t s : List Char} (h : leadsWith t s = true) :
    occursIn t s = true := by
  cases s with
  | nil =>
    cases t with
    | nil => simp [occursIn, List.isEmpty]
    | cons p ps => simp [leadsWith] at h
  | cons c cs => simp [occursIn, h]

theorem occursIn_append_right {t B : List Char} (A : List Char) (h : occursIn t B = true) :
    occursIn t (A ++ B) = true := by
  induction A with
  | nil => simpa using h
  | cons c cs ih => simp [occursIn, ih]

theorem occursIn_append_left {t A : List Char} (B : List Char) (h : occursIn t A = true) :
    occursIn t (A ++ B) = true := by
  induction A with
  | nil =>
    have : t = [] := by
      cases t with
      | nil => rfl
      | cons p ps => simp [occursIn, List.isEmpty] at h
    subst this
    exact occursIn_nil_all B
  | cons c cs ih =>
    simp [occursIn] at h
    rcases h with h | h
    · have := leadsWith_append (u := c :: cs) B h
      simp [occursIn]
      left
      simpa using this
    · simp [occursIn, ih h]

theorem failsWithin_leadsWith_false {pat t : List Char} (h : failsWithin pat t = true)
    (rest : List Char) : leadsWith pat (t ++ rest) = false := by
  induction pat generalizing t with
  | nil => simp [failsWithin] at h
  | cons p ps ih =>
    cases t with
    | nil => simp [failsWithin] at h
    | cons c cs =>
      simp [failsWithin] at h
      simp [leadsWith]
      intro hpc
      rcases h with h | h
      · exact absurd hpc h
      · exact ih h

theorem allFail_scan {pat rep t : List Char} (rest : List Char) (h : allFail pat t = true) :
    pyReplaceA pat rep 0 (t ++ rest) = t ++ pyReplaceA pat rep 0 rest := by
  induction t with
  | nil => simp
  | cons c cs ih =>
    simp [allFail] at h
    have hlw := @failsWithin_leadsWith_false pat (c :: cs) h.1 rest
    simp at hlw
    simp [pyReplaceA, hlw, ih h.2]

theorem skipA {pat rep : List Char} : ∀ (t rest : List Char),
    pyReplaceA pat rep t.length (t ++ rest) = pyReplaceA pat rep 0 rest := by
  intro t
  induction t with
  | nil => intro rest; rfl
  | cons c cs ih => intro rest; simpa [pyReplaceA] using ih rest

theorem leads_split {P : List Char} : ∀ {pat S : List Char},
    leadsWith pat (P ++ S) = true → P.length < pat.length →
    leadsWith (List.drop P.length pat) S = true := by
  induction P with
  | nil => intro pat S h _; simpa using h
  | cons c cs ih =>
    intro pat S h hlt
    cases pat with
    | nil => simp at hlt
    | cons p ps =>
      simp [leadsWith] at h
      have := @ih ps S h.2 (by simpa using Nat.lt_of_succ_lt_succ hlt)
      simpa using this

theorem replaceA_append_bound {pat rep S : List Char} (hS : ∀ k, 0 < k → k < pat.length →
    leadsWith (List.drop k pat) S = false) :
    ∀ (n : Nat) (P : List Char), P.length ≤ n →
      ∃ X, pyReplaceA pat rep 0 (P ++ S) = X ++ pyReplaceA pat rep 0 S := by
  intro n
  induction n with
  | zero =>
    intro P hP
    have : P = [] := List.length_eq_zero.mp (Nat.le_zero.mp hP)
    subst this
    exact ⟨[], by simp⟩
  | succ n ih =>
    intro P hP
    cases P with
    | nil => exact ⟨[], by simp⟩
    | cons c cs =>
      simp only [List.length_cons] at hP
      by_cases hl : leadsWith pat (c :: (cs ++ S)) = true
      · have hlen : pat.length ≤ cs.length + 1 := by
          by_contra hgt
          push_neg at hgt
          have hcross := @leads_split (c :: cs) pat S
            (by simpa using hl) (by simpa using hgt)
          have hz := hS (cs.length + 1) (Nat.succ_pos _) (by simpa using hgt)
          simp [hz] at hcross
        have hm : pat.length - 1 ≤ cs.length := by omega
        have htake : (cs.take (pat.length - 1)).length = pat.length - 1 := by
          simp [List.length_take, Nat.min_eq_left hm]
        have hsplit : cs = cs.take (pat.length - 1) ++ cs.drop (pat.length - 1) :=
          (List.take_append_drop _ cs).symm
        have hstep : pyReplaceA pat rep 0 ((c :: cs) ++ S) =
            rep ++ pyReplaceA pat rep (pat.length - 1) (cs ++ S) := by
          simp [pyReplaceA, hl]
        have hmid := @skipA pat rep
          (cs.take (pat.length - 1)) (cs.drop (pat.length - 1) ++ S)
        rw [htake, ← List.append_assoc, List.take_append_drop] at hmid
        obtain ⟨X, hX⟩ := ih (cs.drop (pat.length - 1)) (by
          have := List.length_drop (pat.length - 1) cs
          omega)
        refine ⟨rep ++ X, ?_⟩
        rw [hstep, hmid, hX, List.append_assoc]
      · have hstep : pyReplaceA pat rep 0 ((c :: cs) ++ S) =
            c :: pyReplaceA pat rep 0 (cs ++ S) := by
          simp [pyReplaceA]
          intro hcontra
          simp [hcontra] at hl
        obtain ⟨X, hX⟩ := ih cs (by omega)
        exact ⟨c :: X, by rw [hstep, hX]; rfl⟩

theorem replaceA_append_ex {pat rep S : List Char} (hS : ∀ k, 0 < k → k < pat.length →
    leadsWith (List.drop k pat) S = false) (P : List Char) :
    ∃ X, pyReplaceA pat rep 0 (P ++ S) = X ++ pyReplaceA pat rep 0 S :=
  replaceA_append_bound hS P.length P (le_refl _)

theorem vis_iff (nm : String) (all : Option (List String)) (hf : Bool) :
    visiblenameB nm all hf = true ↔ visiblenameSpec nm all hf := by
  simp only [visiblenameB, visiblenameSpec, List.contains, List.elem_eq_mem]
  by_cases h1 : nm ∈ hiddenSpecialNames
  · simp [h1]
  · simp only [h1, decide_eq_true_eq, if_false, decide_False, Bool.false_eq_true,
      not_false_eq_true, true_and, if_neg]
    by_cases h2 : (strLeads "__" nm && strEnds "__" nm) = true
    · rw [Bool.and_eq_true] at h2
      simp [h2.1, h2.2]
    · rw [Bool.and_eq_true] at h2
      by_cases h3 : (strLeads "_" nm && hf) = true
      · rw [Bool.and_eq_true] at h3
        simp [h3.1, h3.2, Bool.and_eq_true, h2]
      · rw [Bool.and_eq_true] at h3
        cases all with
        | none =>
          simp [Bool.and_eq_true, h2, h3, Bool.not_eq_true']
        | some a =>
          simp [Bool.and_eq_true, h2, h3, List.elem_eq_mem]

theorem mem_fst_insertSpecial (m : PyModule) (s nm : String) (data : List (String × PyObj)) :
    nm ∈ (insertSpecial m s data).map (fun kv => kv.1) ↔
      ((nm = s ∧ hasattrB m s = true) ∨ nm ∈ data.map (fun kv => kv.1)) := by
  unfold insertSpecial hasattrB
  cases h : alookup m.members s <;> simp [h]

theorem mem_fst_filter {p : String × PyObj → Bool} {l : List (String × PyObj)} {nm : String} :
    nm ∈ (l.filter p).map (fun kv => kv.1) ↔ ∃ v, (nm, v) ∈ l ∧ p (nm, v) = true := by
  simp only [List.mem_map, List.mem_filter]
  constructor
  · rintro ⟨⟨a, b⟩, ⟨hmem, hp⟩, rfl⟩
    exact ⟨b, hmem, hp⟩
  · rintro ⟨v, hmem, hp⟩
    exact ⟨(nm, v), ⟨hmem, hp⟩, rfl⟩

end Pystubber

/-! ## Claims -/

namespace Pystubber

/-- Claim C10: the output of the data renderer `docother` is identical for
any two values of its `maxlen` argument (including `None` and `70`): the
`maxlen` parameter has no effect on the rendered line (its only use in the
source is an assignment that is unconditionally overwritten). -/
theorem claim_c10 (obj : PyObj) (nameOpt mod : Option String) (parent : Option ClassData)
    (ml1 ml2 : Option Nat) (doc : Option String) :
    docother obj nameOpt mod parent ml1 doc = docother obj nameOpt mod parent ml2 doc := rfl

/-- Claim C9 (code bug): `docother` guards the documentation comment with
Python's `if str(doc):`, which is true for `doc=None` because
`str(None) = 'None'`.  So for a value rendered with no documentation supplied
(`doc=None`, as in every `docmodule` DATA entry) a spurious `# None` comment
line is appended, while an empty-string documentation appends nothing —
the claim (and pydoc's original `if doc is not None` guard) say no comment
should appear when no documentation is supplied. -/
theorem claim_c9_bug :
    docother (.dataVal dPlain) (some "x") none none (some 70) none = "x = 1\n# None" ∧
    docother (.dataVal dPlain) (some "x") none none (some 70) (some "") = "x = 1" := by
  constructor <;> decide

/-- Claim C5, counterexample: with no export list, the classifier includes
the dunder-named member `__foo__` (pydoc's `visiblename` always shows
special names), although the claimed visibility predicate ("no export list
and the name does not start with an underscore") excludes it. -/
theorem claim_c5_cex :
    (get_data mC5).map (fun kv => kv.1) = ["__foo__"] ∧
    claimedVisible none "__foo__" = false := by
  constructor <;> decide

/-- Claim C5, amended: the classifier includes a candidate member exactly
when it passes pydoc 3.6.5's `visiblename` predicate — always-hidden special
names excluded, other dunder names always included, leading-underscore names
included when the object has a `_fields` attribute, and otherwise membership
in the export list when one is given, else the no-leading-underscore
convention — and, for classes and routines, when an export list is present or
the provenance test passes (class defined in the target module or of unknown
module; routine builtin or defined in the target module). -/
theorem claim_c5_amended (m : PyModule) (nm : String) (v : PyObj) :
    ((nm, v) ∈ get_classes m ↔
      ((nm, v) ∈ m.members ∧ isclassB v = true ∧
        (m.all.isSome = true ∨ classGmOk v = true) ∧
        visiblenameSpec nm m.all (hasattrB m "_fields"))) ∧
    ((nm, v) ∈ get_funcs m ↔
      ((nm, v) ∈ m.members ∧ isroutineB v = true ∧
        (m.all.isSome = true ∨ funcGmOk v = true) ∧
        visiblenameSpec nm m.all (hasattrB m "_fields"))) ∧
    ((nm, v) ∈ get_data m ↔
      ((nm, v) ∈ m.members ∧ isdataB v = true ∧
        visiblenameSpec nm m.all (hasattrB m "_fields"))) := by
  refine ⟨?_, ?_, ?_⟩ <;>
    simp [get_classes, get_funcs, get_data, List.mem_filter, Bool.and_eq_true,
      Bool.or_eq_true, vis_iff, and_assoc]

/-- Claim C1, counterexample: a module with export list `["f"]` and a
`__version__` attribute renders the top-level name `__version__` (inserted by
the `SPECIAL_DATA` loop of `docmodule` regardless of the export list)
although `__version__` is not in the export list — so the rendered name set
is not the set of exported member names. -/
theorem claim_c1_cex :
    mC1.all = some ["f"] ∧
    renderedNames mC1 = ["__version__", "f"] ∧
    ¬ ("__version__" ∈ ["f"]) := by
  refine ⟨by decide, by decide, by decide⟩

/-- Claim C1, amended: for a module carrying an export list, the rendered
top-level names are exactly the special metadata names
(`__version__`/`__date__`/`__author__`/`__credits__`) present on the module,
together with the member names of class, routine or data kind accepted by
pydoc's `visiblename` under the export list (exported names except the
always-hidden special names, plus all other dunder members, plus
leading-underscore members of namedtuple-like modules). -/
theorem claim_c1_amended (m : PyModule) (A : List String) (nm : String)
    (hall : m.all = some A) :
    nm ∈ renderedNames m ↔
      ((nm ∈ SPECIAL_DATA ∧ hasattrB m nm = true) ∨
       ((∃ v, (nm, v) ∈ m.members ∧
          (isclassB v = true ∨ isroutineB v = true ∨ isdataB v = true)) ∧
        visiblenameSpec nm (some A) (hasattrB m "_fields"))) := by
  have hsome : m.all.isSome = true := by rw [hall]; rfl
  unfold renderedNames moduleDataList insertSpecials
  rw [List.mem_append, List.mem_append, mem_fst_insertSpecial, mem_fst_insertSpecial,
    mem_fst_insertSpecial, mem_fst_insertSpecial]
  unfold get_data get_classes get_funcs
  rw [mem_fst_filter, mem_fst_filter, mem_fst_filter]
  simp only [hall, hsome, Option.isSome_some, Bool.true_or, Bool.true_and, Bool.and_eq_true,
    Bool.and_true, vis_iff, SPECIAL_DATA, List.mem_cons, List.not_mem_nil, or_false]
  constructor
  · rintro (((h | h | h | h | ⟨v, hm, hk, hv⟩) | ⟨v, hm, hk, hv⟩) | ⟨v, hm, hk, hv⟩)
    · exact Or.inl ⟨Or.inr (Or.inr (Or.inr h.1)), by rw [h.1]; exact h.2⟩
    · exact Or.inl ⟨Or.inr (Or.inr (Or.inl h.1)), by rw [h.1]; exact h.2⟩
    · exact Or.inl ⟨Or.inr (Or.inl h.1), by rw [h.1]; exact h.2⟩
    · exact Or.inl ⟨Or.inl h.1, by rw [h.1]; exact h.2⟩
    · exact Or.inr ⟨⟨v, hm, Or.inr (Or.inr hk)⟩, hv⟩
    · exact Or.inr ⟨⟨v, hm, Or.inl hk⟩, hv⟩
    · exact Or.inr ⟨⟨v, hm, Or.inr (Or.inl hk)⟩, hv⟩
  · rintro (⟨hs, hh⟩ | ⟨⟨v, hm, hk⟩, hv⟩)
    · rcases hs with h | h | h | h
      · exact Or.inl (Or.inl (Or.inr (Or.inr (Or.inr (Or.inl ⟨h, by rw [← h]; exact hh⟩)))))
      · exact Or.inl (Or.inl (Or.inr (Or.inr (Or.inl ⟨h, by rw [← h]; exact hh⟩))))
      · exact Or.inl (Or.inl (Or.inr (Or.inl ⟨h, by rw [← h]; exact hh⟩)))
      · exact Or.inl (Or.inl (Or.inl ⟨h, by rw [← h]; exact hh⟩))
    · rcases hk with hk | hk | hk
      · exact Or.inl (Or.inr ⟨v, hm, hk, hv⟩)
      · exact Or.inr ⟨v, hm, hk, hv⟩
      · exact Or.inl (Or.inl (Or.inr (Or.inr (Or.inr (Or.inr ⟨v, hm, hk, hv⟩)))))

/-- Claim C1, witness for the amended theorem at a concrete module. -/
theorem claim_c1_witness :
    mC1.all = some ["f"] ∧
    ("f" ∈ renderedNames mC1 ↔
      (("f" ∈ SPECIAL_DATA ∧ hasattrB mC1 "f" = true) ∨
       ((∃ v, ("f", v) ∈ mC1.members ∧
          (isclassB v = true ∨ isroutineB v = true ∨ isdataB v = true)) ∧
        visiblenameSpec "f" (some ["f"]) (hasattrB mC1 "_fields")))) :=
  ⟨rfl, claim_c1_amended mC1 ["f"] "f" rfl⟩

/-- Claim C2: `docmodule` emits the module docstring (if any) first, then a
DATA section, a CLASSES section and a FUNCTIONS section in exactly that
order, each section omitted entirely when its member list is empty. -/
theorem claim_c2 (fuel : Nat) (m : PyModule) (nameOpt mod : Option String) :
    ∃ dataBody classBody funcBody,
      docmodule fuel m nameOpt mod =
        (((if m.doc ≠ "" then "\"\"\"\n" ++ m.doc ++ "\n\"\"\"\n\n" else "") ++
          (if (moduleDataList m).isEmpty then "" else sectionFmt "\n## DATA ##\n" dataBody)) ++
         (if (get_classes m).isEmpty then "" else sectionFmt "\n## CLASSES ##\n" classBody)) ++
        (if (get_funcs m).isEmpty then "" else sectionFmt "\n## FUNCTIONS ##\n" funcBody) := by
  refine ⟨String.intercalate "\n" ((moduleDataList m).map
      (fun kv => docother kv.2 (some kv.1) nameOpt none (some 70) none)),
    String.intercalate "\n" ((get_classes m).map
      (fun kv => document fuel kv.2 (some kv.1) nameOpt none)),
    String.intercalate "\n" ((get_funcs m).map
      (fun kv => document fuel kv.2 (some kv.1) nameOpt none)), ?_⟩
  unfold docmodule docmoduleG
  by_cases h1 : (moduleDataList m).isEmpty <;> by_cases h2 : (get_classes m).isEmpty <;>
    by_cases h3 : (get_funcs m).isEmpty <;>
      simp [h1, h2, h3, String.append_empty, String.append_assoc]

/-- Claim C6: for every class attribute whose access raises, `spill` (the
attribute pump of `docclass`) catches the failure locally: it renders that
attribute through `_docdescriptor` from the classified value — an entry
depending on the value only through its documentation, with a `None`
placeholder instead of the value — keeps rendering every other matching
attribute, and hands the non-matching attributes on unchanged. -/
theorem claim_c6 (docFn : PyObj → Option String → Option String → Option ClassData → String)
    (c : ClassData) (mod : Option String) (msg : String) (attrs : List ClassAttr)
    (p : ClassAttr → Bool) (needone : Bool) (a : ClassAttr)
    (ha : a ∈ attrs) (hp : p a = true) (herr : a.gat = none) :
    docdescriptor (some a.name) a.value mod ∈ (spillG docFn c mod msg attrs p needone).1 ∧
    (spillG docFn c mod msg attrs p needone).2.1 = attrs.filter (fun x => !(p x)) ∧
    (∀ b, b ∈ attrs → p b = true →
      renderSpillEntry docFn c mod b ∈ (spillG docFn c mod msg attrs p needone).1) ∧
    (∀ v', getdocF v' = getdocF a.value →
      docdescriptor (some a.name) v' mod = docdescriptor (some a.name) a.value mod) := by
  have hmem : a ∈ attrs.filter p := List.mem_filter.mpr ⟨ha, hp⟩
  have hne : (attrs.filter p).isEmpty = false := by
    cases h : attrs.filter p with
    | nil => rw [h] at hmem; simp at hmem
    | cons x xs => rfl
  have hren : renderSpillEntry docFn c mod a = docdescriptor (some a.name) a.value mod := by
    unfold renderSpillEntry
    rw [herr]
  refine ⟨?_, ?_, ?_, ?_⟩
  · rw [← hren]
    unfold spillG splitList
    simp only [hne, Bool.false_eq_true, if_false, List.mem_append, List.mem_cons, List.mem_map]
    exact Or.inr (Or.inr ⟨a, hmem, rfl⟩)
  · unfold spillG splitList
    simp only [hne, Bool.false_eq_true, if_false]
  · intro b hb hpb
    unfold spillG splitList
    simp only [hne, Bool.false_eq_true, if_false, List.mem_append, List.mem_cons, List.mem_map]
    exact Or.inr (Or.inr ⟨b, List.mem_filter.mpr ⟨hb, hpb⟩, rfl⟩)
  · intro v' hdoc
    unfold docdescriptor
    rw [hdoc]

/-- Claim C6, witness: a one-attribute class whose attribute access raises. -/
theorem claim_c6_witness :
    aBad ∈ [aBad] ∧
    (docdescriptor (some aBad.name) aBad.value none ∈
        (spillG docFnNull cA none "Methods defined here:\n" [aBad]
          (fun t => t.kind == AttrKind.method) false).1 ∧
      (spillG docFnNull cA none "Methods defined here:\n" [aBad]
          (fun t => t.kind == AttrKind.method) false).2.1 =
        [aBad].filter (fun x => !((fun t => t.kind == AttrKind.method) x)) ∧
      (∀ b, b ∈ [aBad] → (fun t => t.kind == AttrKind.method) b = true →
        renderSpillEntry docFnNull cA none b ∈
          (spillG docFnNull cA none "Methods defined here:\n" [aBad]
            (fun t => t.kind == AttrKind.method) false).1) ∧
      (∀ v', getdocF v' = getdocF aBad.value →
        docdescriptor (some aBad.name) v' none = docdescriptor (some aBad.name) aBad.value none)) :=
  ⟨List.mem_cons_self aBad [],
   claim_c6 docFnNull cA none "Methods defined here:\n" [aBad]
     (fun t => t.kind == AttrKind.method) false aBad (List.mem_cons_self aBad [])
     (by decide) rfl⟩

/-- Claim C7: a routine rendered under a display name different from its own
name, while the enclosing class dictionary stores that very object under its
real name, is rendered as the declaration line followed only by the stub body
`raise NotImplementedError()` — and the output is independent of the
routine's docstring. -/
theorem claim_c7 (r : RoutineData) (n : String) (mod : Option String) (c : ClassData)
    (hne : n ≠ "") (hnr : n ≠ r.realname) (hd : alookup c.dict r.realname = some r.id) :
    docroutine r (some n) mod (some c) =
      (routineDeclSkip r (some n) mod (some c)).1 ++ "\n" ++
        "    raise NotImplementedError()" ++ "\n" ∧
    (∀ d, docroutine { r with doc := d } (some n) mod (some c) =
      docroutine r (some n) mod (some c)) := by
  have hpi : pyIndent "raise NotImplementedError()" "    " = "    raise NotImplementedError()" := by
    decide
  have hst : routineSkipTitle r n (some c) = (n ++ " = " ++ r.realname, true) := by
    unfold routineSkipTitle
    rw [if_neg hnr]
    simp [hd]
  have hskip : ∃ D, routineDeclSkip r (some n) mod (some c) = (D, true) := by
    unfold routineDeclSkip
    simp only [pyNameOr, if_neg hne, hst]
    cases hsig : r.signatureStr <;> dsimp only <;> split_ifs <;> exact ⟨_, rfl⟩
  obtain ⟨D, hds⟩ := hskip
  have hgen : ∀ (r' : RoutineData),
      routineDeclSkip r' (some n) mod (some c) = (D, true) →
      docroutine r' (some n) mod (some c) =
        D ++ "\n" ++ "    raise NotImplementedError()" ++ "\n" := by
    intro r' hds'
    unfold docroutine
    rw [hds']
    simp [hpi]
  constructor
  · rw [hds]
    exact hgen r hds
  · intro d
    rw [hgen { r with doc := d } (by rw [← hds]; rfl), hgen r hds]

/-- Claim C7, witness: the routine `f` (identity 1) rendered as `alias`
inside the class `A`, whose dictionary stores identity 1 under `f`. -/
theorem claim_c7_witness :
    ("alias" ≠ "") ∧ ("alias" ≠ rPlainF.realname) ∧
    (alookup cA.dict rPlainF.realname = some rPlainF.id) ∧
    (docroutine rPlainF (some "alias") none (some cA) =
        (routineDeclSkip rPlainF (some "alias") none (some cA)).1 ++ "\n" ++
          "    raise NotImplementedError()" ++ "\n" ∧
      (∀ d, docroutine { rPlainF with doc := d } (some "alias") none (some cA) =
        docroutine rPlainF (some "alias") none (some cA))) :=
  ⟨by decide, by decide, by decide,
   claim_c7 rPlainF "alias" none cA (by decide) (by decide) (by decide)⟩

end Pystubber

namespace Pystubber

theorem enumFrom_length (k : Nat) (l : List α) : (enumFrom k l).length = l.length := by
  induction l generalizing k with
  | nil => rfl
  | cons a as ih => simp [enumFrom, ih]

theorem enumFrom_get? (k : Nat) (l : List α) (i : Nat) :
    (enumFrom k l).get? i = (l.get? i).map (fun a => (k + i, a)) := by
  induction l generalizing k i with
  | nil => simp [enumFrom]
  | cons a as ih =>
    cases i with
    | zero => simp [enumFrom]
    | succ j =>
      simp only [enumFrom, List.get?_cons_succ, ih]
      cases as.get? j <;> simp [Nat.add_comm, Nat.add_assoc, Nat.add_left_comm]

/-- Claim C3: the contents pushed by the class renderer consist of the
docstring block, then — exactly when the method-resolution order has more
than two entries — the numbered resolution-order comment block, then the
attribute groups; the block is a heading followed by one `# i) name` line per
class of the linearization with `i` counting from 1, closed by a blank
line.  A class whose order has two entries (itself and the universal root
type) gets no block. -/
theorem claim_c3 (docFn : PyObj → Option String → Option String → Option ClassData → String)
    (c : ClassData) (mod : Option String) :
    (∃ rest, docclassContents docFn c mod =
        ((if c.doc ≠ "" then ["\"\"\"\n" ++ c.doc ++ "\n\"\"\""] else []) ++
          (if 2 < c.mro.length then mroListing c else [])) ++ rest) ∧
    (mroListing c).length = c.mro.length + 2 ∧
    (mroListing c).head? = some "\n## Method resolution order:" ∧
    (mroListing c).getLast? = some "" ∧
    (∀ i (h : i < c.mro.length),
      (mroListing c).get? (i + 1) =
        some ("# " ++ toString (i + 1) ++ ") " ++
          pyClassname (c.mro.get ⟨i, h⟩) (some c.modName))) := by
  refine ⟨⟨docclassLoopG docFn c mod
      (c.mro.length +
        (c.attrs.filter (fun a => visiblenameB a.name none c.fieldsAttr.isSome)).length + 1)
      c.mro (c.attrs.filter (fun a => visiblenameB a.name none c.fieldsAttr.isSome)) false,
    rfl⟩, ?_, rfl, ?_, ?_⟩
  · simp [mroListing, enumFrom_length]
  · unfold mroListing
    exact List.getLast?_concat _
  · intro i h
    unfold mroListing
    rw [List.get?_append (by simp [enumFrom_length]; omega), List.get?_cons_succ,
      List.get?_map, enumFrom_get?, List.get?_eq_get h]
    simp [Nat.add_comm]

/-- Claim C3, witness: the class `A` has a three-entry resolution order and
its listing's first numbered line is entry 1. -/
theorem claim_c3_witness :
    (0 < cA.mro.length) ∧
    (mroListing cA).get? (0 + 1) =
      some ("# " ++ toString (0 + 1) ++ ") " ++
        pyClassname (cA.mro.get ⟨0, by decide⟩) (some cA.modName)) :=
  ⟨by decide, (claim_c3 docFnNull cA none).2.2.2.2 0 (by decide)⟩

/-- Claim C8, counterexample: a lambda routine is rendered with the `lambda`
keyword and unparenthesized parameters, but the declaration is still
prefixed with `def ` (the source builds `decl = 'def ' + title + argspec +
':'` unconditionally), so it is a `def` declaration, contradicting the
claim's "not a def declaration". -/
theorem claim_c8_cex :
    docroutine rLambda none none none =
      "def <lambda> lambda x:\n    raise NotImplementedError()\n" ∧
    strLeads "def " (docroutine rLambda none none none) = true := by
  constructor <;> decide

/-- Claim C8, amended: an unbound routine named `<lambda>` whose signature is
obtainable and whose stripped parameter text is nonempty renders with the
`lambda` keyword and the parameter list unparenthesized (the surrounding
parentheses of the signature text are sliced off) — but the declaration line
is still prefixed by `def `. -/
theorem claim_c8_amended (r : RoutineData) (nameOpt mod : Option String)
    (cl : Option ClassData) (s : String) (hln : r.realname = "<lambda>")
    (hs : r.signatureStr = some s) (hb : r.bound = none)
    (hin : strSlice1m1 (pyReplace (pyReplace s ", /)" ")") ", /" "") ≠ "") :
    ∃ tail, docroutine r nameOpt mod cl =
      pyReplace ("def " ++ (pyNameOr nameOpt r.realname ++ " lambda ") ++
          strSlice1m1 (pyReplace (pyReplace s ", /)" ")") ", /" "") ++ ":") "#  #" "#" ++
        "\n" ++ tail := by
  have hnote : routineNote r mod cl = "" := by
    unfold routineNote
    rw [hb]
  unfold docroutine routineDeclSkip
  simp only [hs, hln, hnote, if_pos rfl, hin, ite_true, ite_false, ne_eq,
    not_true_eq_false, not_false_eq_true]
  cases hrs : routineSkipTitle r (pyNameOr nameOpt "<lambda>") cl with
  | mk t0 sk =>
    simp only [hrs]
    cases sk <;> exact ⟨_, String.append_assoc _ _ _⟩

/-- Claim C8, witness for the amended theorem: the concrete lambda. -/
theorem claim_c8_witness :
    (rLambda.realname = "<lambda>") ∧
    (∃ tail, docroutine rLambda none none none =
      pyReplace ("def " ++ (pyNameOr none rLambda.realname ++ " lambda ") ++
          strSlice1m1 (pyReplace (pyReplace "(x)" ", /)" ")") ", /" "") ++ ":") "#  #" "#" ++
        "\n" ++ tail) :=
  ⟨rfl, claim_c8_amended rLambda none none none "(x)" rfl rfl rfl (by decide)⟩

end Pystubber

namespace Pystubber

theorem docroutine_decl_tail (r : RoutineData) (nameOpt mod : Option String)
    (cl : Option ClassData) :
    ∃ tail, docroutine r nameOpt mod cl =
      (routineDeclSkip r nameOpt mod cl).1 ++ "\n" ++ tail := by
  unfold docroutine
  cases hds : routineDeclSkip r nameOpt mod cl with
  | mk decl sk =>
    cases sk <;> exact ⟨_, String.append_assoc _ _ _⟩

theorem leadsWith_head_ne {c d : Char} (cs ds : List Char) (h : (c == d) = false) :
    leadsWith (c :: cs) (d :: ds) = false := by
  simp [leadsWith, h]

theorem concat_concrete (W : List Char) :
    ("(*args, **kwargs)").data ++ ((":").data ++ (("  # unknown args #").data ++ W)) =
    ("(*args, **kwargs):  # unknown args ").data ++ ('#' :: W) := by
  have h : ("(*args, **kwargs)").data ++ ((":").data ++ ("  # unknown args #").data) =
      ("(*args, **kwargs):  # unknown args ").data ++ ['#'] := by decide
  have h2 := congrArg (fun l => l ++ W) h
  simpa [List.append_assoc] using h2

theorem hS_gen (W : List Char) : ∀ k, 0 < k → k < ("#  #").data.length →
    leadsWith (List.drop k ("#  #").data)
      (("(*args, **kwargs):  # unknown args ").data ++ ('#' :: W)) = false := by
  intro k h1 h2
  rw [show ("#  #").data.length = 4 from by decide] at h2
  have hhead : ("(*args, **kwargs):  # unknown args ").data ++ ('#' :: W) =
      '(' :: (("*args, **kwargs):  # unknown args ").data ++ ('#' :: W)) := rfl
  interval_cases k
  · rw [show List.drop 1 ("#  #").data = [' ', ' ', '#'] from by decide, hhead]
    exact leadsWith_head_ne _ _ (by decide)
  · rw [show List.drop 2 ("#  #").data = [' ', '#'] from by decide, hhead]
    exact leadsWith_head_ne _ _ (by decide)
  · rw [show List.drop 3 ("#  #").data = ['#'] from by decide, hhead]
    exact leadsWith_head_ne _ _ (by decide)

theorem c4_core (T : String) (W : List Char) :
    occursIn ("(*args, **kwargs)").data
      (pyReplaceA ("#  #").data ("#").data 0
        (("def ".data ++ T.data) ++
          (("(*args, **kwargs):  # unknown args ").data ++ ('#' :: W)))) = true ∧
    occursIn ("unknown args").data
      (pyReplaceA ("#  #").data ("#").data 0
        (("def ".data ++ T.data) ++
          (("(*args, **kwargs):  # unknown args ").data ++ ('#' :: W)))) = true := by
  obtain ⟨X, hX⟩ := replaceA_append_ex (hS_gen W) ("def ".data ++ T.data)
  rw [hX, allFail_scan ('#' :: W) (by decide)]
  constructor
  · exact occursIn_append_right _ (occursIn_append_left _ (by decide))
  · exact occursIn_append_right _ (occursIn_append_left _ (by decide))

/-- Claim C4: for every routine whose calling-signature query fails, the
routine renderer falls back instead of failing: the rendered text contains
the literal `(*args, **kwargs)` and the `unknown args` marker, and rendering
proceeds normally (declaration plus body). -/
theorem claim_c4 (r : RoutineData) (nameOpt mod : Option String) (cl : Option ClassData)
    (h : r.signatureStr = none) :
    strContains (docroutine r nameOpt mod cl) "(*args, **kwargs)" = true ∧
    strContains (docroutine r nameOpt mod cl) "unknown args" = true := by
  obtain ⟨tail, htail⟩ := docroutine_decl_tail r nameOpt mod cl
  have hmain : occursIn ("(*args, **kwargs)").data
        ((routineDeclSkip r nameOpt mod cl).1).data = true ∧
      occursIn ("unknown args").data ((routineDeclSkip r nameOpt mod cl).1).data = true := by
    by_cases hn : routineNote r mod cl = ""
    · obtain ⟨sk, hds⟩ : ∃ sk, routineDeclSkip r nameOpt mod cl =
          (pyReplace (((("def " ++ (routineSkipTitle r (pyNameOr nameOpt r.realname) cl).1) ++
            "(*args, **kwargs)") ++ ":") ++ "  # unknown args #") "#  #" "#", sk) := by
        unfold routineDeclSkip
        cases hrs : routineSkipTitle r (pyNameOr nameOpt r.realname) cl with
        | mk t0 sk0 =>
          simp only [h, hrs, hn, ite_true, ite_false, ne_eq, not_true_eq_false,
            not_false_eq_true]
          exact ⟨sk0, rfl⟩
      have hdseq : ((routineDeclSkip r nameOpt mod cl).1).data =
          pyReplaceA ("#  #").data ("#").data 0
            (("def ".data ++ ((routineSkipTitle r (pyNameOr nameOpt r.realname) cl).1).data) ++
              (("(*args, **kwargs):  # unknown args ").data ++ ('#' :: []))) := by
        rw [hds]
        show pyReplaceA ("#  #").data ("#").data 0 _ = _
        congr 1
        simp only [String.data_append, List.append_assoc]
        congr 2
      rw [hdseq]
      exact c4_core _ []
    · obtain ⟨sk, hds⟩ : ∃ sk, routineDeclSkip r nameOpt mod cl =
          (pyReplace ((((("def " ++ (routineSkipTitle r (pyNameOr nameOpt r.realname) cl).1) ++
            "(*args, **kwargs)") ++ ":") ++ "  # unknown args #") ++ "  # " ++
              routineNote r mod cl) "#  #" "#", sk) := by
        unfold routineDeclSkip
        cases hrs : routineSkipTitle r (pyNameOr nameOpt r.realname) cl with
        | mk t0 sk0 =>
          simp only [h, hrs, hn, ite_true, ite_false, ne_eq, not_false_eq_true, if_pos]
          exact ⟨sk0, rfl⟩
      have hdseq : ((routineDeclSkip r nameOpt mod cl).1).data =
          pyReplaceA ("#  #").data ("#").data 0
            (("def ".data ++ ((routineSkipTitle r (pyNameOr nameOpt r.realname) cl).1).data) ++
              (("(*args, **kwargs):  # unknown args ").data ++
                ('#' :: (("  # ").data ++ (routineNote r mod cl).data)))) := by
        rw [hds]
        show pyReplaceA ("#  #").data ("#").data 0 _ = _
        congr 1
        simp only [String.data_append, List.append_assoc]
        congr 2
      rw [hdseq]
      exact c4_core _ _
  rw [htail]
  unfold strContains
  rw [String.data_append, String.data_append]
  exact ⟨occursIn_append_left _ (occursIn_append_left _ hmain.1),
    occursIn_append_left _ (occursIn_append_left _ hmain.2)⟩

/-- Claim C4, witness: a concrete routine with a failing signature query. -/
theorem claim_c4_witness :
    rNoSig.signatureStr = none ∧
    (strContains (docroutine rNoSig none none none) "(*args, **kwargs)" = true ∧
      strContains (docroutine rNoSig none none none) "unknown args" = true) :=
  ⟨rfl, claim_c4 rNoSig none none none rfl⟩

end Pystubber
